import Mathlib

/-!
Verification of the clipboard-history manager core: the data model
(model/item.go), the JSON-file storage driver (storage/driver/json.go and its
variant), the MySQL storage driver, and the clipboard monitor / content
classifier (clipboard/monitor.go, clipboard/processor.go).

Timestamps are modelled as integers; `time.Time.After` is `>` on the integer.
Go's `sort.Slice less` is modelled as a structural sort under the total
preorder `le a b := !(less b a)`, satisfying the same postcondition
(a permutation that is sorted for the comparator).
Filesystem and database effects are modelled by explicit state:
the JSON driver's state is the decoded contents of history.json plus the
list of image files on disk; the MySQL driver's state is the table rows plus
the on-disk image files.
-/

namespace Clip

/-- Content type tag from model/item.go: Text, Image, File. -/
inductive ItemType
  | text
  | image
  | file
deriving DecidableEq

/-- A clipboard history item (model/item.go ClipboardItem), with the
JSON-visible fields. -/
structure Item where
  id : String
  type : ItemType
  content : String
  imagePath : String
  timestamp : Int
  isFavorite : Bool
deriving DecidableEq

/-- The sort.Slice comparator in json.go LoadItems: favorites strictly first,
otherwise by Timestamp.After (strictly more recent first). -/
def favLess (a b : Item) : Bool :=
  if a.isFavorite && !b.isFavorite then true
  else if !a.isFavorite && b.isFavorite then false
  else decide (a.timestamp > b.timestamp)

/-- The total preorder induced by favLess: a may precede b in the sorted
output iff b is not strictly before a. -/
def favLe (a b : Item) : Bool := !(favLess b a)

/-- Insert an item into a list sorted by the total preorder le, keeping it
sorted. -/
def insertLe (le : Item → Item → Bool) (x : Item) : List Item → List Item
  | [] => [x]
  | y :: t => if le x y then x :: y :: t else y :: insertLe le x t

/-- Sort a list by the total preorder le. sort.Slice only promises a
permutation that is sorted under the comparator's preorder; this structural
sort realises that postcondition. -/
def sortLe (le : Item → Item → Bool) : List Item → List Item
  | [] => []
  | x :: t => insertLe le x (sortLe le t)

theorem insertLe_perm (le : Item → Item → Bool) (x : Item) (l : List Item) :
    (insertLe le x l).Perm (x :: l) := by
  induction l with
  | nil => exact List.Perm.refl _
  | cons y t ih =>
    unfold insertLe
    split
    · exact List.Perm.refl _
    · exact (ih.cons y).trans (List.Perm.swap x y t)

theorem sortLe_perm (le : Item → Item → Bool) (l : List Item) :
    (sortLe le l).Perm l := by
  induction l with
  | nil => exact List.Perm.refl _
  | cons x t ih => exact (insertLe_perm le x (sortLe le t)).trans (ih.cons x)

theorem insertLe_pairwise (le : Item → Item → Bool)
    (htotal : ∀ a b, le a b || le b a)
    (htrans : ∀ a b c, le a b = true → le b c = true → le a c = true)
    (x : Item) (l : List Item)
    (hl : l.Pairwise (fun a b => le a b = true)) :
    (insertLe le x l).Pairwise (fun a b => le a b = true) := by
  induction l with
  | nil => simp [insertLe]
  | cons y t ih =>
    rcases List.pairwise_cons.mp hl with ⟨hy, ht⟩
    unfold insertLe
    by_cases hxy : le x y = true
    · simp only [hxy, if_true]
      refine List.pairwise_cons.mpr ⟨?_, hl⟩
      intro z hz
      rcases List.mem_cons.mp hz with rfl | hz'
      · exact hxy
      · exact htrans x y z hxy (hy z hz')
    · have hyx : le y x = true := by
        have := htotal x y
        simp [hxy] at this
        exact this
      simp only [hxy, if_false]
      refine List.pairwise_cons.mpr ⟨?_, ih ht⟩
      intro z hz
      have hz' : z = x ∨ z ∈ t := by
        have hmem := (insertLe_perm le x t).mem_iff.mp hz
        simpa using hmem
      rcases hz' with rfl | hz'
      · exact hyx
      · exact hy z hz'

theorem sortLe_pairwise (le : Item → Item → Bool)
    (htotal : ∀ a b, le a b || le b a)
    (htrans : ∀ a b c, le a b = true → le b c = true → le a c = true)
    (l : List Item) :
    (sortLe le l).Pairwise (fun a b => le a b = true) := by
  induction l with
  | nil => simp [sortLe]
  | cons x t ih => exact insertLe_pairwise le htotal htrans x (sortLe le t) ih

/-- The sort performed by json.go LoadItems. -/
def sortFav (l : List Item) : List Item := sortLe favLe l

/-- The spec's adjacent-pair ordering contract: a favorite followed by a
non-favorite, or equal favorite status with non-increasing timestamps. -/
def orderedPair (a b : Item) : Bool :=
  (a.isFavorite && !b.isFavorite) ||
    ((a.isFavorite == b.isFavorite) && decide (a.timestamp ≥ b.timestamp))

/-- The ordering contract over a whole list: every adjacent pair satisfies
orderedPair. -/
def orderedContract : List Item → Bool
  | [] => true
  | [_] => true
  | a :: b :: t => orderedPair a b && orderedContract (b :: t)

theorem favLe_eq_orderedPair (a b : Item) : favLe a b = orderedPair a b := by
  unfold favLe favLess orderedPair
  cases ha : a.isFavorite <;> cases hb : b.isFavorite <;>
    simp [ha, hb, ← decide_not, decide_eq_decide]

theorem favLe_total (a b : Item) : favLe a b || favLe b a := by
  unfold favLe favLess
  cases ha : a.isFavorite <;> cases hb : b.isFavorite <;>
    simp [ha, hb] <;> omega

theorem favLe_trans (a b c : Item) :
    favLe a b = true → favLe b c = true → favLe a c = true := by
  unfold favLe favLess
  cases a.isFavorite <;> cases b.isFavorite <;> cases c.isFavorite <;>
    simp <;> omega

theorem orderedContract_eq_chain (l : List Item) :
    orderedContract l = true ↔ List.Chain' (fun a b => orderedPair a b = true) l := by
  match l with
  | [] => simp [orderedContract]
  | [a] => simp [orderedContract]
  | a :: b :: t =>
    rw [List.chain'_cons]
    have ih := orderedContract_eq_chain (b :: t)
    simp [orderedContract, ih]

/-- The output of the json.go LoadItems sort satisfies the ordering
contract. -/
theorem orderedContract_sortFav (l : List Item) :
    orderedContract (sortFav l) = true := by
  rw [orderedContract_eq_chain]
  have hp : (sortFav l).Pairwise (fun a b => favLe a b = true) :=
    sortLe_pairwise favLe favLe_total favLe_trans l
  have hp' : (sortFav l).Pairwise (fun a b => orderedPair a b = true) :=
    hp.imp (fun {a b} h => by
      have he := favLe_eq_orderedPair a b
      rw [he] at h
      exact h)
  exact hp'.chain'

/-- Persistent state of the JSON driver: decoded history.json contents plus
the image files present on disk. -/
structure JState where
  file : List Item
  disk : List String
deriving DecidableEq

/-- json.go LoadItems: read the file and sort favorites-first, newest-first. -/
def loadItems (s : JState) : List Item := sortFav s.file

/-- json.go SaveItems: truncate to MaxItems and rewrite the file. -/
def saveItems (maxItems : Nat) (s : JState) (items : List Item) : JState :=
  { s with file := items.take maxItems }

/-- The duplicate test in AddItem: exact match on (content, type, imagePath). -/
def isDup (item newItem : Item) : Bool :=
  item.content == newItem.content && item.type == newItem.type &&
    item.imagePath == newItem.imagePath

/-- json.go AddItem: load, return unchanged on a duplicate, otherwise prepend,
truncate to MaxItems, save, and return the truncated list. -/
def addItem (maxItems : Nat) (s : JState) (newItem : Item) :
    List Item × JState :=
  let items := loadItems s
  if items.any (fun it => isDup it newItem) then
    (items, s)
  else
    let items2 := (newItem :: items).take maxItems
    (items2, saveItems maxItems s items2)

/-- Remove the first item with a matching id, returning it if found
(the loop-with-break in json.go DeleteItem). -/
def removeFirstById (id : String) : List Item → List Item × Option Item
  | [] => ([], none)
  | it :: t =>
    if it.id == id then (t, some it)
    else
      let r := removeFirstById id t
      (it :: r.1, r.2)

/-- os.Remove of an item's backing image file, applied only to Image items
with a non-empty path. -/
def diskRemove (disk : List String) (it : Item) : List String :=
  if it.type == ItemType.image && it.imagePath != "" then
    disk.erase it.imagePath
  else disk

/-- json.go DeleteItem: remove the first matching item (deleting its image
file), save, and return; it never reports a missing id. -/
def deleteItem (maxItems : Nat) (s : JState) (id : String) :
    Except String (List Item) × JState :=
  let items := loadItems s
  let r := removeFirstById id items
  let disk2 :=
    match r.2 with
    | some it => diskRemove s.disk it
    | none => s.disk
  (Except.ok r.1, { file := r.1.take maxItems, disk := disk2 })

/-- Flip isFavorite on the first item with a matching id
(the loop-with-break in json.go ToggleFavorite). -/
def flipFirstById (id : String) : List Item → List Item
  | [] => []
  | it :: t =>
    if it.id == id then { it with isFavorite := !it.isFavorite } :: t
    else it :: flipFirstById id t

/-- json.go ToggleFavorite: flip the first match in place, save, and return
the list without re-sorting; it never reports a missing id. -/
def toggleFavorite (maxItems : Nat) (s : JState) (id : String) :
    Except String (List Item) × JState :=
  let items := flipFirstById id (loadItems s)
  (Except.ok items, { s with file := items.take maxItems })

/-! The variant JSON driver (the second revision of the same file): LoadItems
sorts by timestamp only, DeleteItem removes every match and reports a missing
id, ToggleFavorite reports a missing id and re-sorts favorites-first after
saving. -/

/-- The variant LoadItems comparator: timestamp descending only. -/
def timeLe (a b : Item) : Bool := !(decide (b.timestamp > a.timestamp))

/-- Variant LoadItems: read the file and sort by timestamp descending. -/
def loadItems2 (s : JState) : List Item := sortLe timeLe s.file

/-- The variant ToggleFavorite comparator: favorites first, then
Timestamp.After. -/
def favLess2 (a b : Item) : Bool :=
  if a.isFavorite != b.isFavorite then a.isFavorite
  else decide (a.timestamp > b.timestamp)

/-- Total preorder induced by favLess2. -/
def favLe2 (a b : Item) : Bool := !(favLess2 b a)

/-- Variant DeleteItem: remove every matching item (deleting image files),
fail when none matched, otherwise save and return the new list directly. -/
def deleteItem2 (maxItems : Nat) (s : JState) (id : String) :
    Except String (List Item) × JState :=
  let items := loadItems2 s
  let removed := items.filter (fun it => it.id == id)
  let kept := items.filter (fun it => it.id != id)
  if removed.isEmpty then
    (Except.error ("item not found: " ++ id), s)
  else
    (Except.ok kept,
      { file := kept.take maxItems, disk := removed.foldl diskRemove s.disk })

/-- Variant ToggleFavorite: flip the first match, fail when none matched,
save the flipped (unsorted) list, and return it re-sorted favorites-first. -/
def toggleFavorite2 (maxItems : Nat) (s : JState) (id : String) :
    Except String (List Item) × JState :=
  let items := loadItems2 s
  if !(items.any (fun it => it.id == id)) then
    (Except.error ("item not found: " ++ id), s)
  else
    let flipped := flipFirstById id items
    (Except.ok (sortLe favLe2 flipped),
      { s with file := flipped.take maxItems })

/-! The MySQL driver (GORM): rows plus on-disk image files. ORDER BY clauses
are modelled by merge sorts under the corresponding total preorders; First on
the duplicate query is modelled as the first matching row. -/

/-- State of the MySQL driver: table rows and on-disk image files. -/
structure MState where
  table : List Item
  disk : List String
deriving DecidableEq

/-- ORDER BY is_favorite DESC, timestamp DESC. -/
def mysqlLeDesc (a b : Item) : Bool :=
  (a.isFavorite && !b.isFavorite) ||
    ((a.isFavorite == b.isFavorite) && decide (a.timestamp ≥ b.timestamp))

/-- ORDER BY is_favorite DESC, timestamp ASC (the eviction query). -/
def mysqlLeAsc (a b : Item) : Bool :=
  (a.isFavorite && !b.isFavorite) ||
    ((a.isFavorite == b.isFavorite) && decide (a.timestamp ≤ b.timestamp))

/-- MySQL LoadItems: ORDER BY is_favorite DESC, timestamp DESC LIMIT
MaxItems. -/
def mysqlLoadItems (maxItems : Nat) (s : MState) : List Item :=
  (sortLe mysqlLeDesc s.table).take maxItems

/-- The duplicate branch of MySQL AddItem: update the matched row's timestamp
to the incoming item's timestamp. -/
def updateDupTimestamp (newItem : Item) : List Item → List Item
  | [] => []
  | it :: t =>
    if isDup it newItem then { it with timestamp := newItem.timestamp } :: t
    else it :: updateDupTimestamp newItem t

/-- The insert-or-update step of MySQL AddItem. -/
def mysqlUpsert (table : List Item) (newItem : Item) : List Item :=
  if table.any (fun it => isDup it newItem) then updateDupTimestamp newItem table
  else table ++ [newItem]

/-- The rows past MaxItems of the (is_favorite DESC, timestamp ASC) order:
the records MySQL AddItem evicts. -/
def mysqlEvicted (maxItems : Nat) (table : List Item) : List Item :=
  (sortLe mysqlLeAsc table).drop maxItems

/-- MySQL AddItem: upsert, query rows past MaxItems in (is_favorite DESC,
timestamp ASC) order, delete the image files of the evicted Image rows,
delete the evicted rows, and return LoadItems of the result. -/
def mysqlAddItem (maxItems : Nat) (s : MState) (newItem : Item) :
    Except String (List Item) × MState :=
  let table2 := mysqlUpsert s.table newItem
  let old := mysqlEvicted maxItems table2
  let oldIds := old.map (fun it => it.id)
  let imageOld :=
    table2.filter (fun it => oldIds.contains it.id && it.type == ItemType.image)
  let disk2 := imageOld.foldl diskRemove s.disk
  let table3 := table2.filter (fun it => !(oldIds.contains it.id))
  let s2 : MState := { table := table3, disk := disk2 }
  (Except.ok (mysqlLoadItems maxItems s2), s2)

/-! The clipboard monitor (clipboard/monitor.go) and content classifier
(clipboard/processor.go). The OS clipboard, filesystem and wall clock are
environment inputs: path existence is a Boolean function on strings, storage
results are Except values, and the formatted current time is a string
argument where the code consults the clock. -/

/-- The monitor's three last-seen fingerprint slots. -/
structure MonState where
  lastText : String
  lastImageID : String
  lastFileList : String
deriving DecidableEq

/-- What a handler did with the notification channel on this cycle. -/
inductive PublishOutcome
  | sent
  | dropped
  | blockedThenSent
deriving DecidableEq

/-- Result of one handler invocation: the new fingerprint state and the
publish outcome (none when nothing was published). -/
structure HandlerOut where
  state : MonState
  publish : Option PublishOutcome
deriving DecidableEq

/-- handleTextChange: on AddItem failure return without touching lastText;
on success set lastText from the stored text item and publish, blocking when
the channel is full. -/
def handleTextChange (st : MonState) (text : String)
    (addResult : Except String (List Item)) (full : Bool) : HandlerOut :=
  match addResult with
  | Except.error _ => ⟨st, none⟩
  | Except.ok items =>
    let st2 :=
      if items.any (fun i => i.type == ItemType.text && i.content == text) then
        { st with lastText := text }
      else st
    ⟨st2, some (if full then PublishOutcome.blockedThenSent else PublishOutcome.sent)⟩

/-- handleImageChange: mark lastImageID before saving; reset it to "" only
when SaveImage fails; keep it when AddItem fails; on success publish,
dropping when the channel is full. -/
def handleImageChange (st : MonState) (imageID : String)
    (saveResult : Except String String)
    (addResult : Except String (List Item)) (full : Bool) : HandlerOut :=
  if imageID == st.lastImageID then ⟨st, none⟩
  else
    match saveResult with
    | Except.error _ => ⟨{ st with lastImageID := "" }, none⟩
    | Except.ok _path =>
      match addResult with
      | Except.error _ => ⟨{ st with lastImageID := imageID }, none⟩
      | Except.ok _items =>
        ⟨{ st with lastImageID := imageID },
          some (if full then PublishOutcome.dropped else PublishOutcome.sent)⟩

/-- handleFileChange: set lastFileList before AddItem and keep it on failure;
on success publish, dropping when the channel is full. -/
def handleFileChange (st : MonState) (fileList : String)
    (addResult : Except String (List Item)) (full : Bool) : HandlerOut :=
  let st2 := { st with lastFileList := fileList }
  match addResult with
  | Except.error _ => ⟨st2, none⟩
  | Except.ok _items =>
    ⟨st2, some (if full then PublishOutcome.dropped else PublishOutcome.sent)⟩

/-- Splitting a character list around non-overlapping occurrences of a
non-empty separator, scanning left to right: the skip counter consumes the
remaining characters of a matched separator. Models Go's strings.Split for a
non-empty separator. -/
def splitAux (sep : List Char) : List Char → Nat → List Char → List (List Char)
  | [], _, acc => [acc.reverse]
  | _ :: rest, Nat.succ skip, acc => splitAux sep rest skip acc
  | c :: rest, 0, acc =>
    if sep.isPrefixOf (c :: rest) then
      acc.reverse :: splitAux sep rest (sep.length - 1) []
    else splitAux sep rest 0 (c :: acc)

/-- strings.Split(text, sep) for the non-empty separators used below. -/
def goSplit (text sep : String) : List String :=
  (splitAux sep.data text.data 0 []).map fun cs => ⟨cs⟩

/-- strings.TrimSpace: drop whitespace from both ends. -/
def goTrim (s : String) : String :=
  ⟨((s.data.dropWhile Char.isWhitespace).reverse.dropWhile
      Char.isWhitespace).reverse⟩

/-- strings.Join(paths, ";"). -/
def joinSemi : List String → String
  | [] => ""
  | [p] => p
  | p :: rest => p ++ ";" ++ joinSemi rest

/-- The candidate separators of checkFilePaths, in priority order. -/
def separators : List String := ["\r\n", "\n", ";", "\t"]

/-- The separator loop of checkFilePaths: the first separator whose split has
more than one part wins; otherwise no split. -/
def findSplit : List String → String → List String
  | [], _ => []
  | sep :: rest, text =>
    let parts := goSplit text sep
    if parts.length > 1 then parts else findSplit rest text

/-- checkFilePaths (monitor.go): split, trim, keep the candidates that exist
on the filesystem (the existence test is the environment input ex), and
classify as a File payload iff any candidate survives, fingerprinted by the
semicolon-joined surviving paths. -/
def checkFilePaths (ex : String → Bool) (text : String) : Bool × String :=
  if text == "" then (false, "")
  else
    let paths0 := findSplit separators text
    let paths := if paths0.isEmpty then [text] else paths0
    let validPaths :=
      (paths.map (fun p => goTrim p)).filter (fun p => p != "" && ex p)
    if validPaths.isEmpty then (false, "")
    else (true, joinSemi validPaths)

/-- Modelled from the claim wording for comparison: the first separator that
yields more than one NON-EMPTY segment wins; if none do, the whole text is
the single candidate. -/
def specFindSplit (text : String) : List String :=
  match separators.find?
      (fun sep => decide (((goSplit text sep).filter (fun p => p != "")).length > 1)) with
  | some sep => goSplit text sep
  | none => [text]

/-- The claim's version of checkFilePaths, built on specFindSplit. -/
def specCheckFilePaths (ex : String → Bool) (text : String) : Bool × String :=
  if text == "" then (false, "")
  else
    let validPaths :=
      ((specFindSplit text).map (fun p => goTrim p)).filter (fun p => p != "" && ex p)
    if validPaths.isEmpty then (false, "")
    else (true, joinSemi validPaths)

/-- The amended split rule: the first separator that yields more than one
segment (empty segments count) wins; if none do, the whole text is the single
candidate. -/
def amendedFindSplit (text : String) : List String :=
  match separators.find? (fun sep => decide ((goSplit text sep).length > 1)) with
  | some sep => goSplit text sep
  | none => [text]

/-- The amended-claim version of checkFilePaths, built on amendedFindSplit. -/
def amendedCheckFilePaths (ex : String → Bool) (text : String) : Bool × String :=
  if text == "" then (false, "")
  else
    let validPaths :=
      ((amendedFindSplit text).map (fun p => goTrim p)).filter (fun p => p != "" && ex p)
    if validPaths.isEmpty then (false, "")
    else (true, joinSemi validPaths)

/-- imageID from src/clipboard/processor.go: the formatted current time, the
pixel dimensions, and the byte length. -/
def imageIDv1 (now : String) (width height size : Nat) : String :=
  now ++ "_" ++ toString width ++ "x" ++ toString height ++ "_" ++ toString size

/-- CheckImage built on the time-based imageID; the image decoder is the
environment input dec giving the pixel dimensions of a decodable payload. -/
def checkImageV1 (now : String) (dec : List Nat → Option (Nat × Nat))
    (data : List Nat) : Except String (Bool × String) :=
  if data.isEmpty then Except.ok (false, "")
  else
    match dec data with
    | none => Except.error "decode failed"
    | some (w, h) => Except.ok (true, imageIDv1 now w h data.length)

/-- imageID from the variant processor: md5 hex of the payload bytes plus the
pixel dimensions; md5hex is the (deterministic) hash as an environment
parameter. -/
def imageIDv2 (md5hex : List Nat → String) (width height : Nat)
    (data : List Nat) : String :=
  md5hex data ++ "_" ++ toString width ++ "_" ++ toString height

/-- CheckImage built on the hash-based imageID. -/
def checkImageV2 (md5hex : List Nat → String)
    (dec : List Nat → Option (Nat × Nat)) (data : List Nat) :
    Except String (Bool × String) :=
  if data.isEmpty then Except.ok (false, "")
  else
    match dec data with
    | none => Except.error "decode failed"
    | some (w, h) => Except.ok (true, imageIDv2 md5hex w h data)

/-- The image-branch guard of Monitor.checkClipboard: an image event fires
only when CheckImage succeeded, reported an image, and the fingerprint
differs from lastImageID. -/
def imageEventFires (res : Except String (Bool × String))
    (lastImageID : String) : Bool :=
  match res with
  | Except.ok (isImage, id) => isImage && id != lastImageID
  | Except.error _ => false

/-! Monitor Start/Stop (monitor.go). The loop and its caller are sequential
in this model: the spawned loop runs to completion (it exits at once when the
stop channel is already closed) and Stop's grace period lets the loop's
deferred isRunning reset complete. The loop gets explicit fuel; a cycle count
records how many times checkClipboard ran. -/

/-- Control state of a Monitor: whether StopChan has been closed (it is
created once and never remade) and the isRunning flag. -/
structure MonitorCtl where
  stopClosed : Bool
  isRunning : Bool
deriving DecidableEq

/-- Stop: a no-op unless running; otherwise close StopChan and wait for the
loop to observe it and clear isRunning. -/
def stop (m : MonitorCtl) : MonitorCtl :=
  if !m.isRunning then m
  else { stopClosed := true, isRunning := false }

/-- The poll loop: each iteration exits (clearing isRunning) when StopChan is
closed, else runs one checkClipboard cycle. Returns the control state and
the number of cycles executed. -/
def pollLoop : Nat → MonitorCtl → Nat → MonitorCtl × Nat
  | 0, m, cycles => (m, cycles)
  | fuel + 1, m, cycles =>
    if m.stopClosed then ({ m with isRunning := false }, cycles)
    else pollLoop fuel m (cycles + 1)

/-- Start: fail when already running, otherwise set isRunning and run the
loop. -/
def start (m : MonitorCtl) (fuel : Nat) :
    Except String (MonitorCtl × Nat) :=
  if m.isRunning then Except.error "already running"
  else Except.ok (pollLoop fuel { m with isRunning := true } 0)

/-! Concrete fixtures used by counterexamples and witnesses. -/

/-- A favorited text item. -/
def itemFav : Item := ⟨"1", ItemType.text, "a", "", 5, true⟩

/-- A fresh non-favorite text item. -/
def itemNew : Item := ⟨"2", ItemType.text, "b", "", 9, false⟩

/-- A non-favorite text item with content "a", timestamp 5. -/
def itemOldA : Item := ⟨"1", ItemType.text, "a", "", 5, false⟩

/-- A later add of the same (content, type, imagePath) triple as itemOldA,
with timestamp 9. -/
def itemDupA : Item := ⟨"3", ItemType.text, "a", "", 9, false⟩

/-- A stored image item whose backing file is /img/a.png. -/
def itemImg : Item := ⟨"4", ItemType.image, "img", "/img/a.png", 1, false⟩

/-- A recent image item whose backing file is /img/b.png. -/
def itemImgNew : Item := ⟨"5", ItemType.image, "img2", "/img/b.png", 9, false⟩

/-- A decoder that reports 1x1 dimensions for any payload. -/
def decCE : List Nat → Option (Nat × Nat) := fun _ => some (1, 1)

/-! Supporting lemmas about the sorts, the duplicate-update step, and the
on-disk file removal fold. -/

theorem sortLe_length (le : Item → Item → Bool) (l : List Item) :
    (sortLe le l).length = l.length :=
  (sortLe_perm le l).length_eq

theorem all_sortLe (le : Item → Item → Bool) (p : Item → Bool) (l : List Item) :
    (sortLe le l).all p = l.all p := by
  rw [Bool.eq_iff_iff, List.all_eq_true, List.all_eq_true]
  constructor
  · intro h a ha
    exact h a ((sortLe_perm le l).mem_iff.mpr ha)
  · intro h a ha
    exact h a ((sortLe_perm le l).mem_iff.mp ha)

theorem updateDupTimestamp_length (x : Item) (l : List Item) :
    (updateDupTimestamp x l).length = l.length := by
  induction l with
  | nil => rfl
  | cons it t ih =>
    unfold updateDupTimestamp
    split <;> simp [ih]

theorem find?_updateDupTimestamp (x : Item) (l : List Item)
    (h : l.any (fun it => isDup it x) = true) :
    ((updateDupTimestamp x l).find? (fun it => isDup it x)).map
      (fun it => it.timestamp) = some x.timestamp := by
  induction l with
  | nil => simp at h
  | cons it t ih =>
    rw [List.any_cons] at h
    unfold updateDupTimestamp
    by_cases hd : isDup it x = true
    · rw [if_pos hd]
      have heq : isDup { it with timestamp := x.timestamp } x = isDup it x := rfl
      simp [List.find?_cons, heq, hd]
    · rw [if_neg hd]
      have hd2 : isDup it x = false := by simpa using hd
      simp only [List.find?_cons, hd2]
      exact ih (by simpa [hd] using h)

theorem removeFirstById_all (id : String) (l : List Item)
    (h : l.all (fun it => it.id != id) = true) :
    removeFirstById id l = (l, none) := by
  induction l with
  | nil => rfl
  | cons it t ih =>
    rw [List.all_cons, Bool.and_eq_true] at h
    have hb : (it.id != id) = true := h.1
    have h1 : (it.id == id) = false :=
      beq_eq_false_iff_ne.mpr (bne_iff_ne.mp hb)
    unfold removeFirstById
    rw [h1]
    simp [ih h.2]

theorem flipFirstById_all (id : String) (l : List Item)
    (h : l.all (fun it => it.id != id) = true) :
    flipFirstById id l = l := by
  induction l with
  | nil => rfl
  | cons it t ih =>
    rw [List.all_cons, Bool.and_eq_true] at h
    have hb : (it.id != id) = true := h.1
    have h1 : (it.id == id) = false :=
      beq_eq_false_iff_ne.mpr (bne_iff_ne.mp hb)
    unfold flipFirstById
    rw [h1]
    simp [ih h.2]

theorem diskRemove_subset (d : List String) (it : Item) :
    diskRemove d it ⊆ d := by
  unfold diskRemove
  split
  · exact List.erase_subset it.imagePath d
  · exact List.Subset.refl d

theorem diskRemove_nodup (d : List String) (it : Item) (h : d.Nodup) :
    (diskRemove d it).Nodup := by
  unfold diskRemove
  split
  · exact h.erase _
  · exact h

theorem notMem_foldl_diskRemove_of_notMem (l : List Item) (d : List String)
    (p : String) (h : p ∉ d) : p ∉ l.foldl diskRemove d := by
  induction l generalizing d with
  | nil => exact h
  | cons a t ih =>
    rw [List.foldl_cons]
    exact ih (diskRemove d a) fun hc => h (diskRemove_subset d a hc)

theorem notMem_foldl_diskRemove (l : List Item) (d : List String) (e : Item)
    (hd : d.Nodup) (he : e ∈ l) (ht : e.type = ItemType.image)
    (hp : e.imagePath ≠ "") : e.imagePath ∉ l.foldl diskRemove d := by
  induction l generalizing d with
  | nil => exact absurd he (List.not_mem_nil e)
  | cons a t ih =>
    rw [List.foldl_cons]
    rcases List.mem_cons.mp he with rfl | he'
    · have hcond : (e.type == ItemType.image && e.imagePath != "") = true := by
        simp [ht, bne, hp]
      have hstep : diskRemove d e = d.erase e.imagePath := by
        unfold diskRemove
        rw [hcond]
        simp
      rw [hstep]
      exact notMem_foldl_diskRemove_of_notMem t _ _ (hd.not_mem_erase)
    · exact ih (diskRemove d a) (diskRemove_nodup d a hd) he'

/-- C1: the claim fails on json.go: AddItem of a duplicate triple returns the
existing item with its old timestamp 5, not the second add's timestamp 9,
and leaves the store file untouched. -/
theorem addItem_dup_timestamp_not_updated :
    addItem 10 ⟨[itemOldA], []⟩ itemDupA = ([itemOldA], ⟨[itemOldA], []⟩) ∧
      itemOldA.timestamp = 5 ∧ itemDupA.timestamp = 9 := by decide

/-- C1 (amended): on a duplicate (content, type, imagePath) triple json.go's
AddItem returns the loaded list and state entirely unchanged (no timestamp
update), prepending and truncating only when no duplicate exists; the MySQL
driver does update the matched row's timestamp to the incoming item's while
keeping the row count unchanged. -/
theorem addItem_dedup_amended (maxItems : Nat) (s : JState) (ms : MState)
    (x : Item) :
    ((loadItems s).any (fun it => isDup it x) = true →
      addItem maxItems s x = (loadItems s, s)) ∧
    ((loadItems s).any (fun it => isDup it x) = false →
      (addItem maxItems s x).1 = (x :: loadItems s).take maxItems) ∧
    (ms.table.any (fun it => isDup it x) = true → ms.table.length ≤ maxItems →
      ((mysqlAddItem maxItems ms x).2.table.length = ms.table.length ∧
        (((mysqlAddItem maxItems ms x).2.table.find? (fun it => isDup it x)).map
          (fun it => it.timestamp)) = some x.timestamp)) := by
  refine ⟨?_, ?_, ?_⟩
  · intro h
    simp [addItem, h]
  · intro h
    simp [addItem, h]
  · intro hdup hlen
    have htab2 : mysqlUpsert ms.table x = updateDupTimestamp x ms.table := by
      unfold mysqlUpsert
      rw [if_pos hdup]
    have hlen2 : (mysqlUpsert ms.table x).length = ms.table.length := by
      rw [htab2]
      exact updateDupTimestamp_length x ms.table
    have hold : mysqlEvicted maxItems (mysqlUpsert ms.table x) = [] := by
      unfold mysqlEvicted
      apply List.drop_eq_nil_of_le
      rw [sortLe_length, hlen2]
      exact hlen
    have htable : (mysqlAddItem maxItems ms x).2.table = mysqlUpsert ms.table x := by
      simp [mysqlAddItem, hold, List.contains]
    rw [htable, htab2]
    exact ⟨updateDupTimestamp_length x ms.table,
      find?_updateDupTimestamp x ms.table hdup⟩

/-- Witness for the amended C1: a duplicate add against each driver and a
fresh add against json.go. -/
theorem addItem_dedup_amended_witness :
    addItem 10 ⟨[itemOldA], []⟩ itemDupA =
        (loadItems ⟨[itemOldA], []⟩, ⟨[itemOldA], []⟩) ∧
      (addItem 10 ⟨[itemNew], []⟩ itemDupA).1 =
        (itemDupA :: loadItems ⟨[itemNew], []⟩).take 10 ∧
      (mysqlAddItem 10 ⟨[itemOldA], []⟩ itemDupA).2.table.length = 1 ∧
      (((mysqlAddItem 10 ⟨[itemOldA], []⟩ itemDupA).2.table.find?
          (fun it => isDup it itemDupA)).map (fun it => it.timestamp)) = some 9 := by
  refine ⟨?_, ?_, ?_, ?_⟩
  · exact (addItem_dedup_amended 10 ⟨[itemOldA], []⟩ ⟨[itemOldA], []⟩ itemDupA).1
      (by decide)
  · exact (addItem_dedup_amended 10 ⟨[itemNew], []⟩ ⟨[itemOldA], []⟩ itemDupA).2.1
      (by decide)
  · exact ((addItem_dedup_amended 10 ⟨[itemOldA], []⟩ ⟨[itemOldA], []⟩ itemDupA).2.2
      (by decide) (by decide)).1
  · exact ((addItem_dedup_amended 10 ⟨[itemOldA], []⟩ ⟨[itemOldA], []⟩ itemDupA).2.2
      (by decide) (by decide)).2

/-- C3: the claim fails on json.go: with MaxItems = 1, adding a text item on
top of a stored image item evicts the image record while its backing file
stays on disk, leaving an on-disk image file without a corresponding
record. -/
theorem addItem_orphan_image_file :
    ((addItem 1 ⟨[itemImg], ["/img/a.png"]⟩ itemNew).2).file = [itemNew] ∧
      "/img/a.png" ∈ ((addItem 1 ⟨[itemImg], ["/img/a.png"]⟩ itemNew).2).disk := by
  refine ⟨by decide, ?_⟩
  show "/img/a.png" ∈ ["/img/a.png"]
  exact List.mem_singleton.mpr rfl

/-- C3 (amended): json.go's AddItem truncates the items past MaxItems from
the tail of the loaded favorites-first recency order but never deletes their
backing image files (the disk is unchanged, so orphans can remain); the
MySQL driver does delete the backing files of its evicted Image rows, but it
evicts the rows past MaxItems of the (favorite DESC, timestamp ASC) order,
i.e. the most-recently-touched non-favorites first. -/
theorem capacity_eviction_amended (maxItems : Nat) (s : JState) (ms : MState)
    (x : Item) :
    ((addItem maxItems s x).2).disk = s.disk ∧
    ((loadItems s).any (fun it => isDup it x) = false →
      ((addItem maxItems s x).2).file = (x :: loadItems s).take maxItems) ∧
    (∀ e : Item, e ∈ mysqlEvicted maxItems (mysqlUpsert ms.table x) →
      e.type = ItemType.image → e.imagePath ≠ "" → ms.disk.Nodup →
      e.imagePath ∉ ((mysqlAddItem maxItems ms x).2).disk) := by
  refine ⟨?_, ?_, ?_⟩
  · by_cases h : (loadItems s).any (fun it => isDup it x) = true
    · simp [addItem, h]
    · simp only [Bool.not_eq_true] at h
      simp [addItem, saveItems, h]
  · intro h
    simp [addItem, saveItems, h, List.take_take]
  · intro e he ht hp hd
    have hmem2 : e ∈ mysqlUpsert ms.table x := by
      unfold mysqlEvicted at he
      have h1 : e ∈ sortLe mysqlLeAsc (mysqlUpsert ms.table x) :=
        List.drop_subset maxItems _ he
      exact (sortLe_perm _ _).mem_iff.mp h1
    have hid : ((mysqlEvicted maxItems (mysqlUpsert ms.table x)).map
        (fun it => it.id)).contains e.id = true := by
      have hm : e.id ∈ (mysqlEvicted maxItems (mysqlUpsert ms.table x)).map
          (fun it => it.id) := List.mem_map_of_mem (fun it => it.id) he
      exact List.elem_eq_true_of_mem hm
    have hin : e ∈ (mysqlUpsert ms.table x).filter
        (fun it =>
          ((mysqlEvicted maxItems (mysqlUpsert ms.table x)).map
            (fun i2 => i2.id)).contains it.id && it.type == ItemType.image) := by
      rw [List.mem_filter, Bool.and_eq_true]
      exact ⟨hmem2, hid, by simp [ht]⟩
    show e.imagePath ∉ _
    exact notMem_foldl_diskRemove _ ms.disk e hd hin ht hp

/-- Witness for the amended C3: the orphan-producing json.go add and a MySQL
add that deletes the evicted image row's backing file. -/
theorem capacity_eviction_amended_witness :
    ((addItem 1 ⟨[itemImg], ["/img/a.png"]⟩ itemNew).2).disk = ["/img/a.png"] ∧
      ((addItem 1 ⟨[itemImg], ["/img/a.png"]⟩ itemNew).2).file =
        (itemNew :: loadItems ⟨[itemImg], ["/img/a.png"]⟩).take 1 ∧
      "/img/b.png" ∉
        ((mysqlAddItem 1 ⟨[itemOldA], ["/img/b.png"]⟩ itemImgNew).2).disk := by
  refine ⟨?_, ?_, ?_⟩
  · exact (capacity_eviction_amended 1 ⟨[itemImg], ["/img/a.png"]⟩
      ⟨[], []⟩ itemNew).1
  · exact (capacity_eviction_amended 1 ⟨[itemImg], ["/img/a.png"]⟩
      ⟨[], []⟩ itemNew).2.1 (by decide)
  · have h := (capacity_eviction_amended 1 ⟨[], []⟩
      ⟨[itemOldA], ["/img/b.png"]⟩ itemImgNew).2.2 itemImgNew
    have hmem : itemImgNew ∈ mysqlEvicted 1 (mysqlUpsert [itemOldA] itemImgNew) := by
      decide
    have hres := h hmem (by decide) (by decide)
      (List.nodup_singleton "/img/b.png")
    exact hres

/-- C4: the claim fails on json.go: DeleteItem and ToggleFavorite of an id
matching no item return success with the list unchanged instead of failing
with a not-found error. -/
theorem deleteItem_missing_id_no_error :
    (deleteItem 10 ⟨[itemOldA], []⟩ "zzz").1 = Except.ok [itemOldA] ∧
      (toggleFavorite 10 ⟨[itemOldA], []⟩ "zzz").1 = Except.ok [itemOldA] :=
  ⟨rfl, rfl⟩

/-- C4 (amended): in the variant JSON driver, DeleteItem and ToggleFavorite
of an unmatched id fail with a not-found error and leave the state
unchanged; in json.go both return success, with the store contents unchanged
apart from the load-sort rewrite of the file. -/
theorem missing_id_amended (maxItems : Nat) (s : JState) (id : String)
    (h : s.file.all (fun it => it.id != id) = true) :
    deleteItem2 maxItems s id = (Except.error ("item not found: " ++ id), s) ∧
      toggleFavorite2 maxItems s id =
        (Except.error ("item not found: " ++ id), s) ∧
      deleteItem maxItems s id =
        (Except.ok (loadItems s),
          { file := (loadItems s).take maxItems, disk := s.disk }) ∧
      toggleFavorite maxItems s id =
        (Except.ok (loadItems s),
          { file := (loadItems s).take maxItems, disk := s.disk }) := by
  have h2 : (loadItems2 s).all (fun it => it.id != id) = true := by
    unfold loadItems2
    rw [all_sortLe]
    exact h
  have h1 : (loadItems s).all (fun it => it.id != id) = true := by
    unfold loadItems sortFav
    rw [all_sortLe]
    exact h
  refine ⟨?_, ?_, ?_, ?_⟩
  · have hrem : (loadItems2 s).filter (fun it => it.id == id) = [] := by
      rw [List.filter_eq_nil_iff]
      intro a ha
      have := List.all_eq_true.mp h2 a ha
      simp [bne] at this
      simp [this]
    simp [deleteItem2, hrem]
  · have hany : (loadItems2 s).any (fun it => it.id == id) = false := by
      rw [List.any_eq_false]
      intro a ha
      have := List.all_eq_true.mp h2 a ha
      simp [bne] at this
      simp [this]
    simp [toggleFavorite2, hany]
  · simp [deleteItem, removeFirstById_all id _ h1]
  · simp [toggleFavorite, flipFirstById_all id _ h1]

/-- Witness for the amended C4 at a concrete one-item store and missing
id. -/
theorem missing_id_amended_witness :
    deleteItem2 10 ⟨[itemOldA], []⟩ "zzz" =
        (Except.error ("item not found: " ++ "zzz"), ⟨[itemOldA], []⟩) ∧
      toggleFavorite2 10 ⟨[itemOldA], []⟩ "zzz" =
        (Except.error ("item not found: " ++ "zzz"), ⟨[itemOldA], []⟩) ∧
      deleteItem 10 ⟨[itemOldA], []⟩ "zzz" =
        (Except.ok (loadItems ⟨[itemOldA], []⟩),
          { file := (loadItems ⟨[itemOldA], []⟩).take 10, disk := [] }) ∧
      toggleFavorite 10 ⟨[itemOldA], []⟩ "zzz" =
        (Except.ok (loadItems ⟨[itemOldA], []⟩),
          { file := (loadItems ⟨[itemOldA], []⟩).take 10, disk := [] }) :=
  missing_id_amended 10 ⟨[itemOldA], []⟩ "zzz" (by decide)

/-- C2: the claim fails on the code: AddItem prepends the new non-favorite
item ahead of an existing favorite, so the list returned by this mutating
call violates the ordering contract. -/
theorem mutation_ordering_contract_fails :
    (addItem 10 ⟨[itemFav], []⟩ itemNew).1 = [itemNew, itemFav] ∧
      orderedContract [itemNew, itemFav] = false := by decide

/-- C2 (amended): the ordering contract holds for every list returned by
LoadItems; mutating calls may return lists that violate it (AddItem prepends
ahead of favorites, and ToggleFavorite in json.go returns without
re-sorting). -/
theorem loadItems_ordering_contract (s : JState) :
    orderedContract (loadItems s) = true :=
  orderedContract_sortFav s.file

/-- C8: SaveItems of at most MaxItems items followed by LoadItems returns a
permutation of the saved items that satisfies the ordering contract. -/
theorem save_load_round_trip (maxItems : Nat) (s : JState) (items : List Item)
    (h : items.length ≤ maxItems) :
    (loadItems (saveItems maxItems s items)).Perm items ∧
      orderedContract (loadItems (saveItems maxItems s items)) = true := by
  constructor
  · unfold loadItems saveItems sortFav
    simp only [List.take_of_length_le h]
    exact sortLe_perm favLe items
  · exact orderedContract_sortFav _

/-- Witness for C8 at a concrete store and two-item list. -/
theorem save_load_round_trip_witness :
    (loadItems (saveItems 10 ⟨[], []⟩ [itemNew, itemFav])).Perm [itemNew, itemFav] ∧
      orderedContract (loadItems (saveItems 10 ⟨[], []⟩ [itemNew, itemFav])) = true :=
  save_load_round_trip 10 ⟨[], []⟩ [itemNew, itemFav] (by decide)

/-- C5: the claim fails on the code: handleFileChange sets lastFileList to
the new fingerprint before calling AddItem, so on an AddItem failure the slot
differs from its value before the cycle. -/
theorem fileChange_fingerprint_updated_on_error :
    (handleFileChange ⟨"", "", "old"⟩ "new" (Except.error "io") true).state.lastFileList = "new" ∧
      (⟨"", "", "old"⟩ : MonState).lastFileList = "old" := by decide

/-- C5 (amended): on an AddItem failure only handleTextChange leaves its
fingerprint slot unchanged; handleImageChange keeps the already-updated
lastImageID (it resets it only when SaveImage fails) and handleFileChange
keeps the already-updated lastFileList, so failed image and file adds are
not retried. -/
theorem addItem_failure_fingerprint_amended (st : MonState)
    (text imageID fileList path e : String) (full : Bool)
    (h : imageID ≠ st.lastImageID) :
    handleTextChange st text (Except.error e) full = ⟨st, none⟩ ∧
    handleImageChange st imageID (Except.ok path) (Except.error e) full =
      ⟨{ st with lastImageID := imageID }, none⟩ ∧
    handleFileChange st fileList (Except.error e) full =
      ⟨{ st with lastFileList := fileList }, none⟩ := by
  refine ⟨rfl, ?_, rfl⟩
  have hb : (imageID == st.lastImageID) = false := by simp [h]
  simp [handleImageChange, hb]

/-- Witness for the amended C5 at concrete fingerprints. -/
theorem addItem_failure_fingerprint_amended_witness :
    handleTextChange ⟨"t0", "i0", "f0"⟩ "t1" (Except.error "io") false = ⟨⟨"t0", "i0", "f0"⟩, none⟩ ∧
    handleImageChange ⟨"t0", "i0", "f0"⟩ "i1" (Except.ok "/p") (Except.error "io") false =
      ⟨⟨"t0", "i1", "f0"⟩, none⟩ ∧
    handleFileChange ⟨"t0", "i0", "f0"⟩ "f1" (Except.error "io") false =
      ⟨⟨"t0", "i0", "f1"⟩, none⟩ :=
  addItem_failure_fingerprint_amended ⟨"t0", "i0", "f0"⟩ "t1" "i1" "f1" "/p" "io" false
    (by decide)

/-- C9: the claim fails on the code: with a full channel the text handler
and the file handler resolve the overflow differently (neither both drop nor
both block). -/
theorem channel_overflow_policy_not_uniform :
    ¬ (((handleTextChange ⟨"", "", ""⟩ "t" (Except.ok [itemNew]) true).publish =
          some PublishOutcome.dropped ∧
        (handleFileChange ⟨"", "", ""⟩ "f" (Except.ok [itemNew]) true).publish =
          some PublishOutcome.dropped) ∨
       ((handleTextChange ⟨"", "", ""⟩ "t" (Except.ok [itemNew]) true).publish =
          some PublishOutcome.blockedThenSent ∧
        (handleFileChange ⟨"", "", ""⟩ "f" (Except.ok [itemNew]) true).publish =
          some PublishOutcome.blockedThenSent)) := by decide

/-- C9 (amended): when the channel is full at publish time the text handler
blocks until space frees while the image and file handlers drop the
update. -/
theorem channel_overflow_policy_amended (st : MonState)
    (text fileList imageID path : String) (items : List Item)
    (h : imageID ≠ st.lastImageID) :
    (handleTextChange st text (Except.ok items) true).publish =
      some PublishOutcome.blockedThenSent ∧
    (handleImageChange st imageID (Except.ok path) (Except.ok items) true).publish =
      some PublishOutcome.dropped ∧
    (handleFileChange st fileList (Except.ok items) true).publish =
      some PublishOutcome.dropped := by
  refine ⟨rfl, ?_, rfl⟩
  have hb : (imageID == st.lastImageID) = false := by simp [h]
  simp [handleImageChange, hb]

/-- Witness for the amended C9 at concrete inputs. -/
theorem channel_overflow_policy_amended_witness :
    (handleTextChange ⟨"", "", ""⟩ "t" (Except.ok []) true).publish =
      some PublishOutcome.blockedThenSent ∧
    (handleImageChange ⟨"", "", ""⟩ "x" (Except.ok "/p") (Except.ok []) true).publish =
      some PublishOutcome.dropped ∧
    (handleFileChange ⟨"", "", ""⟩ "f" (Except.ok []) true).publish =
      some PublishOutcome.dropped :=
  channel_overflow_policy_amended ⟨"", "", ""⟩ "t" "f" "x" "/p" [] (by decide)

/-- C7: the claim fails on src/clipboard/processor.go: its imageID embeds the
formatted current time, so two polls reading identical bytes in different
seconds compute different fingerprints. -/
theorem imageID_time_dependent :
    checkImageV1 "20250101120000" decCE [7] =
        Except.ok (true, "20250101120000_1x1_1") ∧
      checkImageV1 "20250101120001" decCE [7] =
        Except.ok (true, "20250101120001_1x1_1") ∧
      ("20250101120000_1x1_1" : String) ≠ "20250101120001_1x1_1" :=
  ⟨rfl, rfl, by decide⟩

/-- C7 (amended): the hash-based imageID of the variant processor is a pure
function of the payload bytes: two polls reading identical bytes compute
equal CheckImage results, and the second poll's fingerprint, being equal to
the previously seen one, does not fire an image event. -/
theorem imageID_hash_pure_amended (md5hex : List Nat → String)
    (dec : List Nat → Option (Nat × Nat)) (data data2 : List Nat)
    (id : String) (h : data = data2)
    (hid : checkImageV2 md5hex dec data = Except.ok (true, id)) :
    checkImageV2 md5hex dec data = checkImageV2 md5hex dec data2 ∧
      imageEventFires (checkImageV2 md5hex dec data2) id = false := by
  subst h
  refine ⟨rfl, ?_⟩
  rw [hid]
  simp [imageEventFires]

/-- Witness for the amended C7 at a concrete hash, decoder and payload. -/
theorem imageID_hash_pure_amended_witness :
    checkImageV2 (fun _ => "h") decCE [7] = checkImageV2 (fun _ => "h") decCE [7] ∧
      imageEventFires (checkImageV2 (fun _ => "h") decCE [7]) "h_1_1" = false :=
  imageID_hash_pure_amended (fun _ => "h") decCE [7] [7] "h_1_1" rfl rfl

theorem findSplit_eq (seps : List String) (text : String) :
    findSplit seps text =
      match seps.find? (fun sep => decide ((goSplit text sep).length > 1)) with
      | some sep => goSplit text sep
      | none => [] := by
  induction seps with
  | nil => rfl
  | cons sep rest ih =>
    unfold findSplit
    by_cases h : (goSplit text sep).length > 1
    · simp [List.find?_cons, h]
    · simp [List.find?_cons, h, ih]

/-- A filesystem on which exactly /a and /b exist. -/
def exCE : String → Bool := fun s => s == "/a" || s == "/b"

/-- C6: the claim fails on the code: for the payload "/a;/b\n" (with /a and
/b existing) the code splits on LF, whose second segment is empty, and tests
the single candidate "/a;/b", classifying the payload as not-a-file; the
claim's first-separator-with-more-than-one-non-empty-segment rule would
split on the semicolon and classify it as a File payload. -/
theorem checkFilePaths_split_rule_counterexample :
    checkFilePaths exCE "/a;/b\n" = (false, "") ∧
      specCheckFilePaths exCE "/a;/b\n" = (true, "/a;/b") := by
  refine ⟨?_, ?_⟩ <;> decide

/-- C6 (amended): the code splits on the first separator among CRLF, LF,
semicolon, tab that yields more than one segment, counting empty segments
(not more than one non-empty segment); the rest of the claim stands: if none
yields more than one segment the whole text is the single candidate, every
candidate is trimmed, the text is a File payload iff a trimmed candidate
exists on the filesystem, and the fingerprint joins the existing paths with
semicolons. -/
theorem checkFilePaths_amended_split_rule (ex : String → Bool) (text : String) :
    checkFilePaths ex text = amendedCheckFilePaths ex text := by
  unfold checkFilePaths amendedCheckFilePaths amendedFindSplit
  by_cases h0 : (text == "") = true
  · rw [if_pos h0, if_pos h0]
  · rw [if_neg h0, if_neg h0, findSplit_eq]
    cases hf : separators.find? (fun sep => decide ((goSplit text sep).length > 1)) with
    | none => simp [hf]
    | some sep =>
      have hp := List.find?_some hf
      have hlen : (goSplit text sep).length > 1 := by simpa using hp
      have hne : (goSplit text sep).isEmpty = false := by
        cases hsp : goSplit text sep with
        | nil => rw [hsp] at hlen; simp at hlen
        | cons a t => rfl
      simp [hf, hne]

/-- C10: once the stop channel is closed it stays closed, and a later Start
returns without error while its loop observes the closed channel and exits
with zero poll cycles, leaving the monitor not running. -/
theorem stopped_monitor_never_restarts (m m2 : MonitorCtl) (fuel : Nat)
    (h1 : m.stopClosed = true) (h2 : m.isRunning = false)
    (h3 : m2.stopClosed = true) :
    start m (fuel + 1) = Except.ok (⟨true, false⟩, 0) ∧
      (stop m2).stopClosed = true := by
  obtain ⟨sc, ir⟩ := m
  obtain ⟨sc2, ir2⟩ := m2
  simp only [MonitorCtl.mk.injEq] at *
  subst h1; subst h2; subst h3
  constructor
  · simp [start, pollLoop]
  · unfold stop
    split <;> rfl

/-- Witness for C10 at a concrete stopped monitor. -/
theorem stopped_monitor_never_restarts_witness :
    start ⟨true, false⟩ 3 = Except.ok (⟨true, false⟩, 0) ∧
      (stop ⟨true, true⟩).stopClosed = true :=
  stopped_monitor_never_restarts ⟨true, false⟩ ⟨true, true⟩ 2 rfl rfl rfl

end Clip
